import Mathlib

/-! Overview.
Verification of the xk6-browser protocol-driving layer against its
natural-language specification.  The Go sources under `common/` are embedded
shallowly: pure helpers become Lean functions, the CDP session becomes an
abstract executor, and the decision logic of the network manager becomes a
function from block rules and a request URL to the list of CDP commands it
issues.  Where a component's implementation lives outside the provided
sources (the network manager's decision pipeline itself and the frame
manager's navigation-wait machinery), its definition is modelled from the
specification text, as marked in the doc comments.
-/

namespace XK6

/-! Section: IP addresses and CIDR networks

Modelled after Go's `net.IP` / `net.IPNet`: an address is an IPv4 or IPv6
numeric value, and a CIDR network contains an address of the same family
whose leading `maskBits` bits agree with the network's base address. -/

inductive IP where
  | v4 (a : Nat)
  | v6 (a : Nat)
deriving DecidableEq, Repr

structure IPNet where
  isV6 : Bool
  base : Nat
  maskBits : Nat
deriving DecidableEq, Repr

def IPNet.containsIP (n : IPNet) (ip : IP) : Bool :=
  match ip with
  | .v4 a => !n.isV6 && (a / 2 ^ (32 - n.maskBits) == n.base / 2 ^ (32 - n.maskBits))
  | .v6 a => n.isV6 && (a / 2 ^ (128 - n.maskBits) == n.base / 2 ^ (128 - n.maskBits))

def mkIPv4 (a b c d : Nat) : IP := .v4 (((a * 256 + b) * 256 + c) * 256 + d)

def mkIPv4Net (a b c d bits : Nat) : IPNet :=
  ⟨false, ((a * 256 + b) * 256 + c) * 256 + d, bits⟩

/-! Section: Parsing helpers on character lists -/

def decDigitsAux : List Char → Nat → Option Nat
  | [], acc => some acc
  | c :: cs, acc =>
      if c.isDigit then decDigitsAux cs (acc * 10 + (c.toNat - 48)) else none

def decDigits? (cs : List Char) : Option Nat :=
  match cs with
  | [] => none
  | _ :: _ => decDigitsAux cs 0

def splitOnChar (sep : Char) : List Char → List (List Char)
  | [] => [[]]
  | c :: cs =>
      let r := splitOnChar sep cs
      if c = sep then [] :: r
      else
        match r with
        | [] => [[c]]
        | g :: gs => (c :: g) :: gs

def takeUntilChar (sep : Char) : List Char → List Char
  | [] => []
  | c :: cs => if c = sep then [] else c :: takeUntilChar sep cs

def ipv4Octet? (cs : List Char) : Option Nat :=
  match decDigits? cs with
  | some n => if n ≤ 255 then some n else none
  | none => none

/-- Modelled after Go's `net.ParseIP` restricted to dotted-quad IPv4
literals, the only literal form the embedded URLs use: four decimal octets
separated by dots, each at most 255. -/
def parseIP (host : String) : Option IP :=
  match (splitOnChar '.' host.data).mapM ipv4Octet? with
  | some [a, b, c, d] => some (mkIPv4 a b c d)
  | _ => none

def isSchemeTailChar (c : Char) : Bool :=
  c.isAlphanum || c = '+' || c = '-' || c = '.'

def validScheme (cs : List Char) : Bool :=
  match cs with
  | [] => false
  | c :: rest => c.isAlpha && rest.all isSchemeTailChar

/-- Split a URL at its first colon into scheme and remainder; `none` when no
colon occurs. -/
def splitScheme : List Char → Option (List Char × List Char)
  | [] => none
  | c :: cs =>
      if c = ':' then some ([], cs)
      else
        match splitScheme cs with
        | some (sch, rest) => some (c :: sch, rest)
        | none => none

/-- Modelled from the spec: the URL-parsing step of the interception
pipeline (Go's `url.Parse` followed by `URL.Hostname()`, neither under the
provided sources).  A URL yields a hostname when it has a valid scheme (a
leading letter followed by letters, digits, `+`, `-` or `.`) before the
first colon, followed by `//` and an authority; the hostname is the
authority up to the first `/`, with any `:port` stripped.  `:::` has an
empty scheme and therefore fails to parse. -/
def urlHostname (url : String) : Option String :=
  match splitScheme url.data with
  | none => none
  | some (sch, rest) =>
      if validScheme sch then
        match rest with
        | '/' :: '/' :: tail =>
            some (String.mk (takeUntilChar ':' (takeUntilChar '/' tail)))
        | _ => none
      else none

/-! Section: Hostname block patterns -/

def lowerChars (s : String) : List Char := s.data.map Char.toLower

/-- Modelled from the spec: the k6 hostname-trie match (case-insensitive
glob/suffix semantics; a leading `*` matches any prefix, so `*.test`
matches `host.test`; without a wildcard the pattern must equal the host). -/
def matchHostPattern (pat host : String) : Bool :=
  match lowerChars pat with
  | '*' :: rest => rest.isSuffixOf (lowerChars host)
  | p => p == lowerChars host

/-! Section: The interception decision pipeline -/

def failCmd : String := "Fetch.failRequest"
def continueCmd : String := "Fetch.continueRequest"

structure BlockRules where
  blockedHostnames : List String
  blockedIPs : List IPNet

def blockedByIP (nets : List IPNet) (ip : IP) : Bool :=
  nets.any (fun n => n.containsIP ip)

/-- Modelled from the spec: `NetworkManager.onRequestPaused` (its
implementation is not under the provided sources; only its tests are).
Decision pipeline, spec section 4.4: (1) parse the URL, failing open on a
parse error; (2) a literal-IP host is matched directly against the CIDR
block rules; (3) otherwise match the hostname against the block patterns,
failing the request on a match; (4) otherwise, resolve the hostname and
fail the request when any resolved address lies in a blocked network;
(5) otherwise continue.  The result is the list of CDP commands issued on
the session, in order ("configured" rule sets are non-empty lists; an
empty list matches nothing, so the configured-checks are subsumed). -/
def onRequestPaused (rules : BlockRules) (resolve : String → List IP)
    (reqURL : String) : List String :=
  match urlHostname reqURL with
  | none => [continueCmd]
  | some host =>
      match parseIP host with
      | some ip =>
          if blockedByIP rules.blockedIPs ip then [failCmd] else [continueCmd]
      | none =>
          if rules.blockedHostnames.any (fun p => matchHostPattern p host) then
            [failCmd]
          else if (resolve host).any (fun ip => blockedByIP rules.blockedIPs ip) then
            [failCmd]
          else [continueCmd]

/-- The mock resolver of the network-manager tests: `host.test` resolves to
`127.0.0.10`, `127.0.0.11`, `127.0.0.12`, `2001:db8::10`, `2001:db8::11`,
`2001:db8::12`; everything else does not resolve. -/
def mockResolve (host : String) : List IP :=
  if host = "host.test" then
    [mkIPv4 127 0 0 10, mkIPv4 127 0 0 11, mkIPv4 127 0 0 12,
     .v6 (0x20010db8 * 2 ^ 96 + 0x10), .v6 (0x20010db8 * 2 ^ 96 + 0x11),
     .v6 (0x20010db8 * 2 ^ 96 + 0x12)]
  else []

/-! Section: Frame navigation lifecycle and WaitForNavigation

Modelled from the spec (section 4.3): the frame manager's navigation
lifecycle state machine and the waiter created by `WaitForNavigation` /
lifecycle waits.  The frame manager itself is not under the provided
sources. -/

inductive LifecycleState where
  | init
  | navigating
  | committed
  | domContentLoaded
  | loaded
  | networkIdle
deriving DecidableEq, Repr

/-- Position of a lifecycle state in the progression
`Init → Navigating → Committed → DOMContentLoaded → Loaded → NetworkIdle`. -/
def LifecycleState.rank : LifecycleState → Nat
  | .init => 0
  | .navigating => 1
  | .committed => 2
  | .domContentLoaded => 3
  | .loaded => 4
  | .networkIdle => 5

/-- Events a frame consumes: a frame-navigated event with a new loader
identifier (a navigation starts), a lifecycle event advancing the state for
the current navigation, and the frame-detached event. -/
inductive FrameEvent where
  | navigationStarted
  | lifecycle (s : LifecycleState)
  | frameDetached
deriving DecidableEq, Repr

structure FrameState where
  navCount : Nat
  state : LifecycleState
  detached : Bool
deriving DecidableEq, Repr

/-- Modelled from the spec: one step of the frame lifecycle state machine.
A new navigation resets the state to `navigating` and is counted; a
lifecycle event advances the state monotonically (the state cannot regress
within one navigation attempt); a detach event marks the frame detached. -/
def FrameState.step (fs : FrameState) : FrameEvent → FrameState
  | .navigationStarted => { fs with navCount := fs.navCount + 1, state := .navigating }
  | .lifecycle s => if fs.state.rank ≤ s.rank then { fs with state := s } else fs
  | .frameDetached => { fs with detached := true }

inductive WaitOutcome where
  | pending
  | success
  | frameDetachedError
deriving DecidableEq, Repr

/-- Modelled from the spec: the waiter installed by
`WaitForNavigation(untilState)`.  `token` is the causality token captured
at call time — the number of navigations that had started when the wait was
issued.  Processing the subsequent events in order, the wait resolves with
a frame-detached error as soon as the frame is detached, resolves
successfully as soon as a navigation newer than the token has brought the
frame to a state at least `untilState`, and otherwise stays pending. -/
def resolveWait (token : Nat) (untilState : LifecycleState) :
    FrameState → List FrameEvent → WaitOutcome
  | _, [] => .pending
  | fs, e :: rest =>
      let fs2 := fs.step e
      if fs2.detached then .frameDetachedError
      else if token < fs2.navCount && untilState.rank ≤ fs2.state.rank then .success
      else resolveWait token untilState fs2 rest

/-! Section: Browser launch options (common/browser_options.go) -/

structure ProxyOptions where
  server : String
  bypass : String
  username : String
  password : String
deriving DecidableEq, Repr

/-- Structure `LaunchOptions` from common/browser_options.go.  Go's nil-able slices
and maps are embedded as `Option` so the source's nil/empty distinction
survives; `time.Duration` is an integer nanosecond count. -/
structure LaunchOptions where
  args : Option (List String)
  debug : Bool
  devtools : Bool
  env : Option (List (String × String))
  executablePath : String
  headless : Bool
  ignoreDefaultArgs : Option (List String)
  logCategoryFilter : String
  proxy : ProxyOptions
  slowMo : Int
  timeout : Int
deriving DecidableEq, Repr

/-- Modelled from the spec: the `DefaultTimeout` constant referenced by
`NewLaunchOptions` is defined outside the provided sources; its value (the
default timeout in nanoseconds) does not matter to any claim. -/
def DefaultTimeout : Int := 30 * 1000000000

/-- The Go zero value of `LaunchOptions` (what a composite literal assigns
to every omitted field). -/
def LaunchOptions.zero : LaunchOptions :=
  { args := none, debug := false, devtools := false, env := none,
    executablePath := "", headless := false, ignoreDefaultArgs := none,
    logCategoryFilter := "", proxy := ⟨"", "", "", ""⟩, slowMo := 0,
    timeout := 0 }

/-- Constructor `NewLaunchOptions` from common/browser_options.go: a composite literal
setting `Env` to a fresh empty map, `Headless`, `LogCategoryFilter` and
`Timeout`, leaving every other field at its zero value. -/
def NewLaunchOptions : LaunchOptions :=
  { LaunchOptions.zero with
    env := some [], headless := true, logCategoryFilter := ".*",
    timeout := DefaultTimeout }

/-- A value from the scripting runtime (goja), as far as option parsing
distinguishes values: `Export()` returns nil exactly for null and
undefined; otherwise the value may carry a bool, a string, a duration, a
string list, an env map or a proxy object, or have some other shape none
of the option parsers accept. -/
inductive JSValue where
  | null
  | undef
  | bool (b : Bool)
  | str (s : String)
  | duration (n : Int)
  | strList (xs : List String)
  | envMap (m : List (String × String))
  | proxyObj (p : ProxyOptions)
  | other
deriving DecidableEq, Repr

/-- Whether `v.Export() == nil` in Go: true exactly for null/undefined. -/
def JSValue.exportsNil : JSValue → Bool
  | .null => true
  | .undef => true
  | _ => false

inductive ParseError where
  | optsMissing
  | badOpt (key : String)
deriving DecidableEq, Repr

/-- Modelled from the spec: `parseBoolOpt` (not under the provided
sources) — a boolean value parses to itself, any other shape is an error
for that key; Go's two-value assignment stores the zero bool on error. -/
def parseBoolOpt (k : String) (v : JSValue) : Bool × Option ParseError :=
  match v with
  | .bool b => (b, none)
  | _ => (false, some (.badOpt k))

/-- Modelled from the spec: `parseStrOpt`, analogous to `parseBoolOpt`. -/
def parseStrOpt (k : String) (v : JSValue) : String × Option ParseError :=
  match v with
  | .str s => (s, none)
  | _ => ("", some (.badOpt k))

/-- Modelled from the spec: `parseTimeOpt`, analogous to `parseBoolOpt`. -/
def parseTimeOpt (k : String) (v : JSValue) : Int × Option ParseError :=
  match v with
  | .duration n => (n, none)
  | _ => (0, some (.badOpt k))

/-- Modelled from the spec: `exportOpt` into a string-slice destination —
on success the destination is replaced, on failure it is left unchanged. -/
def exportStrListOpt (k : String) (v : JSValue) (dest : Option (List String)) :
    Option (List String) × Option ParseError :=
  match v with
  | .strList xs => (some xs, none)
  | _ => (dest, some (.badOpt k))

/-- Modelled from the spec: `exportOpt` into the env-map destination. -/
def exportEnvOpt (k : String) (v : JSValue) (dest : Option (List (String × String))) :
    Option (List (String × String)) × Option ParseError :=
  match v with
  | .envMap m => (some m, none)
  | _ => (dest, some (.badOpt k))

/-- Modelled from the spec: `exportOpt` into the proxy destination. -/
def exportProxyOpt (k : String) (v : JSValue) (dest : ProxyOptions) :
    ProxyOptions × Option ParseError :=
  match v with
  | .proxyObj p => (p, none)
  | _ => (dest, some (.badOpt k))

/-- The recognized option keys — the cases of the switch in
`LaunchOptions.Parse`. -/
def launchOptionKeys : List String :=
  ["args", "debug", "devtools", "env", "executablePath", "headless",
   "ignoreDefaultArgs", "logCategoryFilter", "proxy", "slowMo", "timeout"]

/-- The switch statement of `LaunchOptions.Parse`: dispatch on the key,
write the parsed value into the corresponding field and report that key's
parse error, if any.  A key matching no case changes nothing and produces
no error. -/
def applyLaunchKey (l : LaunchOptions) (k : String) (v : JSValue) :
    LaunchOptions × Option ParseError :=
  if k = "args" then
    match exportStrListOpt k v l.args with
    | (a, e) => ({ l with args := a }, e)
  else if k = "debug" then
    match parseBoolOpt k v with
    | (b, e) => ({ l with debug := b }, e)
  else if k = "devtools" then
    match parseBoolOpt k v with
    | (b, e) => ({ l with devtools := b }, e)
  else if k = "env" then
    match exportEnvOpt k v l.env with
    | (m, e) => ({ l with env := m }, e)
  else if k = "executablePath" then
    match parseStrOpt k v with
    | (s, e) => ({ l with executablePath := s }, e)
  else if k = "headless" then
    match parseBoolOpt k v with
    | (b, e) => ({ l with headless := b }, e)
  else if k = "ignoreDefaultArgs" then
    match exportStrListOpt k v l.ignoreDefaultArgs with
    | (a, e) => ({ l with ignoreDefaultArgs := a }, e)
  else if k = "logCategoryFilter" then
    match parseStrOpt k v with
    | (s, e) => ({ l with logCategoryFilter := s }, e)
  else if k = "proxy" then
    match exportProxyOpt k v l.proxy with
    | (p, e) => ({ l with proxy := p }, e)
  else if k = "slowMo" then
    match parseTimeOpt k v with
    | (t, e) => ({ l with slowMo := t }, e)
  else if k = "timeout" then
    match parseTimeOpt k v with
    | (t, e) => ({ l with timeout := t }, e)
  else (l, none)

/-- The key loop of `LaunchOptions.Parse`: keys are visited in iteration
order; a key whose value exports to nil is skipped (its field keeps its
previous value, no error); otherwise the key is dispatched, and the first
parse error stops the loop with the mutations of earlier keys retained. -/
def parseLoop (l : LaunchOptions) :
    List (String × JSValue) → LaunchOptions × Option ParseError
  | [] => (l, none)
  | (k, v) :: rest =>
      if v.exportsNil then parseLoop l rest
      else
        match applyLaunchKey l k v with
        | (l2, none) => parseLoop l2 rest
        | (l2, some e) => (l2, some e)

/-- Method `LaunchOptions.Parse` from common/browser_options.go.  `none` stands
for an options value that does not exist in the runtime (nil, null or
undefined); otherwise the options object is its key/value pairs in
iteration order.  The result pairs the (receiver-mutating) final options
value with the returned error, if any. -/
def LaunchOptions.Parse (l : LaunchOptions)
    (opts : Option (List (String × JSValue))) :
    LaunchOptions × Option ParseError :=
  match opts with
  | none => (l, some .optsMissing)
  | some kvs => parseLoop l kvs

/-! Section: Touchscreen (common/touchscreen.go) -/

inductive TouchEventType where
  | touchStart
  | touchEnd
deriving DecidableEq, Repr

/-- An `Input.dispatchTouchEvent` CDP command as the touchscreen issues it:
the event type, the touch points, and the modifiers it carries.  The
coordinate type is a parameter — `tap` only moves coordinates around. -/
structure TouchCommand (α : Type) where
  eventType : TouchEventType
  touchPoints : List (α × α)
  modifiers : Int
deriving DecidableEq, Repr

/-- Method `Touchscreen.tap` from common/touchscreen.go: dispatch a TouchStart
carrying the single point `(x, y)`, then a TouchEnd with no points, both
with the keyboard's current modifiers; each dispatch executes on the
session and the first failure aborts.  `exec` abstracts
`session.Execute`; the result is the ordered trace of issued commands
paired with the returned error, if any. -/
def Touchscreen.tap {α ε : Type} (exec : TouchCommand α → Option ε)
    (modifiers : Int) (x y : α) : List (TouchCommand α) × Option ε :=
  let c1 : TouchCommand α := ⟨.touchStart, [(x, y)], modifiers⟩
  match exec c1 with
  | some err => ([c1], some err)
  | none =>
      let c2 : TouchCommand α := ⟨.touchEnd, [], modifiers⟩
      match exec c2 with
      | some err => ([c1, c2], some err)
      | none => ([c1, c2], none)

/-- C1: with hostname block patterns configured (and no CIDR rules), a
paused request whose URL parses and whose host is a hostname (not a literal
IP) is failed exactly when the host matches some pattern, and continued
otherwise; the decision is the same for every resolver, i.e. independent of
reachability. -/
theorem onRequestPaused_hostname_decision (pats : List String)
    (resolve : String → List IP) (url host : String)
    (hu : urlHostname url = some host) (hip : parseIP host = none) :
    onRequestPaused ⟨pats, []⟩ resolve url =
      if pats.any (fun p => matchHostPattern p host) then [failCmd]
      else [continueCmd] := by
  simp only [onRequestPaused, hu, hip, blockedByIP, List.any_nil]
  cases pats.any (fun p => matchHostPattern p host) <;> simp

/-- C2: with CIDR blocked networks configured (and no hostname patterns), a
paused request whose URL parses is failed exactly when its literal-IP host
lies in a blocked network, or its host is not a literal IP and some address
it resolves to lies in a blocked network; otherwise it is continued. -/
theorem onRequestPaused_ip_decision (nets : List IPNet)
    (resolve : String → List IP) (url host : String)
    (hu : urlHostname url = some host) :
    (onRequestPaused ⟨[], nets⟩ resolve url = [failCmd] ↔
      (∃ ip, parseIP host = some ip ∧ blockedByIP nets ip = true) ∨
        (parseIP host = none ∧
          (resolve host).any (fun ip => blockedByIP nets ip) = true)) ∧
    (onRequestPaused ⟨[], nets⟩ resolve url = [continueCmd] ↔
      ¬ ((∃ ip, parseIP host = some ip ∧ blockedByIP nets ip = true) ∨
        (parseIP host = none ∧
          (resolve host).any (fun ip => blockedByIP nets ip) = true))) := by
  rcases hip : parseIP host with _ | ip
  · simp only [onRequestPaused, hu, hip, List.any_nil, Bool.false_eq_true,
      if_false]
    rcases hb : (resolve host).any (fun ip => blockedByIP nets ip) with _ | _ <;>
      simp_all [failCmd, continueCmd]
  · simp only [onRequestPaused, hu, hip]
    rcases hb2 : blockedByIP nets ip with _ | _ <;>
      simp_all [failCmd, continueCmd]

/-- C3: a paused request whose URL fails to parse yields a single
continue-request decision, whatever block rules are configured. -/
theorem onRequestPaused_unparseable_url (rules : BlockRules)
    (resolve : String → List IP) (url : String)
    (hu : urlHostname url = none) :
    onRequestPaused rules resolve url = [continueCmd] := by
  simp [onRequestPaused, hu]

/-- C4: every call to onRequestPaused issues exactly one decision command —
the trace is either the singleton continue-request or the singleton
fail-request, across all rule sets, resolvers and URLs. -/
theorem onRequestPaused_single_decision (rules : BlockRules)
    (resolve : String → List IP) (url : String) :
    onRequestPaused rules resolve url = [continueCmd] ∨
      onRequestPaused rules resolve url = [failCmd] := by
  unfold onRequestPaused
  repeat' split
  all_goals simp

/-- C5: a paused request whose host is a literal IP is decided by the CIDR
rules alone: the decision is the same for every set of hostname patterns
and every resolver (so the resolver is never consulted), and with no CIDR
rules configured a literal-IP host always yields a continue decision. -/
theorem onRequestPaused_literal_ip_host (pats pats2 : List String)
    (nets : List IPNet) (resolve resolve2 : String → List IP)
    (url host : String) (ip : IP)
    (hu : urlHostname url = some host) (hip : parseIP host = some ip) :
    onRequestPaused ⟨pats, nets⟩ resolve url =
        onRequestPaused ⟨pats2, nets⟩ resolve2 url ∧
      onRequestPaused ⟨pats, []⟩ resolve url = [continueCmd] := by
  constructor <;> simp [onRequestPaused, hu, hip, blockedByIP]

/-- Witness for C1: pattern `*.test` fails a request to `http://host.test/`. -/
theorem onRequestPaused_hostname_decision_witness :
    onRequestPaused ⟨["*.test"], []⟩ mockResolve "http://host.test/" =
      [failCmd] := by
  rw [onRequestPaused_hostname_decision ["*.test"] mockResolve
    "http://host.test/" "host.test" (by decide) (by decide)]
  decide

/-- Witness for C2: blocking `127.0.0.10/32` fails a request to
`http://host.test/`, whose host resolves to `127.0.0.10` among others. -/
theorem onRequestPaused_ip_decision_witness :
    onRequestPaused ⟨[], [mkIPv4Net 127 0 0 10 32]⟩ mockResolve
      "http://host.test/" = [failCmd] :=
  (onRequestPaused_ip_decision [mkIPv4Net 127 0 0 10 32] mockResolve
    "http://host.test/" "host.test" (by decide)).1.mpr
    (Or.inr ⟨by decide, by decide⟩)

/-- Witness for C3: the unparseable URL `:::` is continued even with the
block pattern `*.test` configured. -/
theorem onRequestPaused_unparseable_url_witness :
    onRequestPaused ⟨["*.test"], []⟩ mockResolve ":::" = [continueCmd] :=
  onRequestPaused_unparseable_url ⟨["*.test"], []⟩ mockResolve ":::" (by decide)

/-- Witness for C5: the literal-IP host `127.0.0.1` is unaffected by the
hostname pattern `*.test` and by the resolver, and is continued when no
CIDR rules are configured. -/
theorem onRequestPaused_literal_ip_host_witness :
    onRequestPaused ⟨["*.test"], []⟩ mockResolve "http://127.0.0.1:8000/" =
        onRequestPaused ⟨[], []⟩ (fun _ => []) "http://127.0.0.1:8000/" ∧
      onRequestPaused ⟨["*.test"], []⟩ mockResolve "http://127.0.0.1:8000/" =
        [continueCmd] :=
  onRequestPaused_literal_ip_host ["*.test"] [] [] mockResolve (fun _ => [])
    "http://127.0.0.1:8000/" "127.0.0.1" (mkIPv4 127 0 0 1)
    (by decide) (by decide)

/-- Helper for C6: once a wait's causality condition can still be met — the
frame is attached and a navigation newer than the token has started — any
later lifecycle event reaching at least `untilState` resolves the wait
successfully (provided no detach intervenes). -/
lemma resolveWait_success_of_lifecycle (token : Nat) (u : LifecycleState) :
    ∀ (evs : List FrameEvent) (fs : FrameState), fs.detached = false →
      token < fs.navCount → FrameEvent.frameDetached ∉ evs →
      (∃ s, FrameEvent.lifecycle s ∈ evs ∧ u.rank ≤ s.rank) →
      resolveWait token u fs evs = .success := by
  intro evs
  induction evs with
  | nil =>
      intro fs _ _ _ hex
      rcases hex with ⟨s, hs, _⟩
      exact absurd hs (List.not_mem_nil _)
  | cons e rest ih =>
      intro fs hdet hnav hnd hex
      have hednd : e ≠ FrameEvent.frameDetached := by
        intro he; exact hnd (he ▸ List.mem_cons_self e rest)
      have hrestnd : FrameEvent.frameDetached ∉ rest := by
        intro h; exact hnd (List.mem_cons_of_mem e h)
      have hdet2 : (fs.step e).detached = false := by
        cases e with
        | navigationStarted => simpa [FrameState.step] using hdet
        | lifecycle s =>
            simp only [FrameState.step]
            split <;> simpa using hdet
        | frameDetached => exact absurd rfl hednd
      have hnav2 : token < (fs.step e).navCount := by
        cases e with
        | navigationStarted =>
            simp only [FrameState.step]
            omega
        | lifecycle s =>
            simp only [FrameState.step]
            split <;> simpa using hnav
        | frameDetached => exact absurd rfl hednd
      rw [resolveWait]
      simp only [hdet2, Bool.false_eq_true, if_false]
      by_cases hcond : (token < (fs.step e).navCount ∧
          u.rank ≤ (fs.step e).state.rank)
      · have : (decide (token < (fs.step e).navCount) &&
            decide (u.rank ≤ (fs.step e).state.rank)) = true := by
          simp [hcond.1, hcond.2]
        simp [this]
      · have hc2 : (decide (token < (fs.step e).navCount) &&
            decide (u.rank ≤ (fs.step e).state.rank)) = false := by
          rcases Decidable.not_and_iff_or_not.mp hcond with h | h <;> simp [h]
        simp only [hc2, Bool.false_eq_true, if_false]
        apply ih (fs.step e) hdet2 hnav2 hrestnd
        rcases hex with ⟨s, hs, hu⟩
        rcases List.mem_cons.mp hs with he | hs2
        · exfalso
          apply hcond
          refine ⟨hnav2, ?_⟩
          have : fs.step e = fs.step (FrameEvent.lifecycle s) := by rw [he]
          rw [this]
          simp only [FrameState.step]
          split
          · exact hu
          · omega
        · exact ⟨s, hs2, hu⟩

/-- Helper for C6: as long as no new navigation starts, the wait can never
resolve successfully, because the navigation count never exceeds the token
captured at call time. -/
lemma resolveWait_no_success_without_nav (token : Nat) (u : LifecycleState) :
    ∀ (evs : List FrameEvent) (fs : FrameState), fs.navCount ≤ token →
      FrameEvent.navigationStarted ∉ evs →
      resolveWait token u fs evs ≠ .success := by
  intro evs
  induction evs with
  | nil =>
      intro fs _ _
      simp [resolveWait]
  | cons e rest ih =>
      intro fs hnav hnn
      have hen : e ≠ FrameEvent.navigationStarted := by
        intro he; exact hnn (he ▸ List.mem_cons_self e rest)
      have hrest : FrameEvent.navigationStarted ∉ rest := by
        intro h; exact hnn (List.mem_cons_of_mem e h)
      have hnav2 : (fs.step e).navCount ≤ token := by
        cases e with
        | navigationStarted => exact absurd rfl hen
        | lifecycle s =>
            simp only [FrameState.step]
            split <;> simpa using hnav
        | frameDetached => simpa [FrameState.step] using hnav
      rw [resolveWait]
      by_cases hdet : (fs.step e).detached = true
      · simp [hdet]
      · have hc : (decide (token < (fs.step e).navCount) &&
            decide (u.rank ≤ (fs.step e).state.rank)) = false := by
          have : ¬ token < (fs.step e).navCount := by omega
          simp [this]
        simp only [eq_false_of_ne_true hdet, Bool.false_eq_true, if_false, hc]
        exact ih (fs.step e) hnav2 hrest

/-- C6: WaitForNavigation causality.  With the token captured at call time
(the frame's current navigation count): (a) a wait issued before a
navigation starts resolves successfully once that navigation reaches the
requested lifecycle state (no detach intervening); (b) a wait issued after
a navigation already completed never resolves against it — without a new
navigation-started event the outcome is never success, whatever stale
lifecycle events still arrive. -/
theorem waitForNavigation_causality (fs : FrameState) (u : LifecycleState) :
    (∀ evs : List FrameEvent, fs.detached = false →
      FrameEvent.frameDetached ∉ evs →
      (∃ s, FrameEvent.lifecycle s ∈ evs ∧ u.rank ≤ s.rank) →
      resolveWait fs.navCount u fs (FrameEvent.navigationStarted :: evs) =
        .success) ∧
    (∀ evs : List FrameEvent, FrameEvent.navigationStarted ∉ evs →
      resolveWait fs.navCount u fs evs ≠ .success) := by
  constructor
  · intro evs hdet hnd hex
    have hdet2 : (fs.step FrameEvent.navigationStarted).detached = false := by
      simpa [FrameState.step] using hdet
    have hnav2 : fs.navCount < (fs.step FrameEvent.navigationStarted).navCount := by
      simp [FrameState.step]
    rw [resolveWait]
    simp only [hdet2, Bool.false_eq_true, if_false]
    by_cases hcond : u.rank ≤ (fs.step FrameEvent.navigationStarted).state.rank
    · simp [hnav2, hcond]
    · have hc2 : (decide (fs.navCount <
          (fs.step FrameEvent.navigationStarted).navCount) &&
          decide (u.rank ≤ (fs.step FrameEvent.navigationStarted).state.rank)) =
            false := by
        simp [hcond]
      simp only [hc2, Bool.false_eq_true, if_false]
      exact resolveWait_success_of_lifecycle fs.navCount u evs
        (fs.step FrameEvent.navigationStarted) hdet2 hnav2 hnd hex
  · intro evs hnn
    exact resolveWait_no_success_without_nav fs.navCount u evs fs le_rfl hnn

/-- C7: a pending lifecycle wait is resolved by the frame's detach event
with a frame-detached error — it is never left pending. -/
theorem pending_wait_resolved_by_detach (token : Nat) (u : LifecycleState) :
    ∀ (evs : List FrameEvent) (fs : FrameState),
      resolveWait token u fs evs = .pending →
      resolveWait token u fs (evs ++ [FrameEvent.frameDetached]) =
        .frameDetachedError := by
  intro evs
  induction evs with
  | nil =>
      intro fs _
      simp [resolveWait, FrameState.step]
  | cons e rest ih =>
      intro fs hp
      rw [resolveWait] at hp
      rw [List.cons_append, resolveWait]
      by_cases hdet : (fs.step e).detached = true
      · simp [hdet] at hp
      · simp only [eq_false_of_ne_true hdet, Bool.false_eq_true, if_false] at hp ⊢
        by_cases hc : (decide (token < (fs.step e).navCount) &&
            decide (u.rank ≤ (fs.step e).state.rank)) = true
        · simp [hc] at hp
        · simp only [eq_false_of_ne_true hc, Bool.false_eq_true, if_false] at hp ⊢
          exact ih (fs.step e) hp

/-- Witness for C6: with a wait issued at navigation count 1 and state
`loaded`: a later navigation reaching `loaded` resolves it, and a stale
`networkIdle` lifecycle event without a new navigation never does. -/
theorem waitForNavigation_causality_witness :
    resolveWait 1 .loaded ⟨1, .loaded, false⟩
        [.navigationStarted, .lifecycle .domContentLoaded, .lifecycle .loaded] =
      .success ∧
    resolveWait 1 .loaded ⟨1, .loaded, false⟩ [.lifecycle .networkIdle] ≠
      .success :=
  ⟨(waitForNavigation_causality ⟨1, .loaded, false⟩ .loaded).1
    [.lifecycle .domContentLoaded, .lifecycle .loaded] (by decide) (by decide)
    ⟨.loaded, by decide, by decide⟩,
   (waitForNavigation_causality ⟨1, .loaded, false⟩ .loaded).2
    [.lifecycle .networkIdle] (by decide)⟩

/-- C8: NewLaunchOptions sets Headless to true, LogCategoryFilter to
`.*`, Timeout to DefaultTimeout and Env to a non-nil empty map, and leaves
every other field at its Go zero value. -/
theorem newLaunchOptions_defaults :
    NewLaunchOptions.headless = true ∧
    NewLaunchOptions.logCategoryFilter = ".*" ∧
    NewLaunchOptions.timeout = DefaultTimeout ∧
    NewLaunchOptions.env = some [] ∧
    NewLaunchOptions.args = LaunchOptions.zero.args ∧
    NewLaunchOptions.debug = LaunchOptions.zero.debug ∧
    NewLaunchOptions.devtools = LaunchOptions.zero.devtools ∧
    NewLaunchOptions.executablePath = LaunchOptions.zero.executablePath ∧
    NewLaunchOptions.ignoreDefaultArgs = LaunchOptions.zero.ignoreDefaultArgs ∧
    NewLaunchOptions.logCategoryFilter ≠ LaunchOptions.zero.logCategoryFilter ∧
    NewLaunchOptions.proxy = LaunchOptions.zero.proxy ∧
    NewLaunchOptions.slowMo = LaunchOptions.zero.slowMo := by
  refine ⟨rfl, rfl, rfl, rfl, rfl, rfl, rfl, rfl, rfl, ?_, rfl, rfl⟩
  decide

/-- Helper for C9: a key matching no case of the switch leaves the options
unchanged and produces no error. -/
lemma applyLaunchKey_unrecognized (l : LaunchOptions) (k : String)
    (v : JSValue) (hk : k ∉ launchOptionKeys) :
    applyLaunchKey l k v = (l, none) := by
  simp only [launchOptionKeys, List.mem_cons, List.not_mem_nil, or_false,
    not_or] at hk
  obtain ⟨h1, h2, h3, h4, h5, h6, h7, h8, h9, h10, h11⟩ := hk
  simp [applyLaunchKey, h1, h2, h3, h4, h5, h6, h7, h8, h9, h10, h11]

/-- Helper for C9: a prefix of keys that parses without error runs the
loop to its final state, after which the remaining keys are processed. -/
lemma parseLoop_append (pre : List (String × JSValue)) :
    ∀ (l l2 : LaunchOptions) (rest : List (String × JSValue)),
      parseLoop l pre = (l2, none) →
      parseLoop l (pre ++ rest) = parseLoop l2 rest := by
  induction pre with
  | nil =>
      intro l l2 rest h
      simp only [parseLoop, Prod.mk.injEq] at h
      rw [List.nil_append, h.1]
  | cons kv pre2 ih =>
      intro l l2 rest h
      obtain ⟨k, v⟩ := kv
      rw [parseLoop] at h
      rw [List.cons_append, parseLoop]
      by_cases hnil : v.exportsNil = true
      · simp only [hnil, if_true] at h ⊢
        exact ih l l2 rest h
      · simp only [eq_false_of_ne_true hnil, Bool.false_eq_true, if_false] at h ⊢
        rcases hak : applyLaunchKey l k v with ⟨l3, oe⟩
        rw [hak] at h
        cases oe with
        | none => exact ih l3 l2 rest h
        | some e => simp at h

/-- C9: in LaunchOptions.Parse, (a) a key whose value exports to nil is
skipped — parsing proceeds as if the key were absent, so its field keeps
its previous value and no error arises from it; (b) an unrecognized key is
likewise ignored without error; (c) when a recognized key's value fails to
parse after earlier keys succeeded, Parse stops immediately with that
error, returning the options with the earlier keys' mutations already
applied — it is not atomic on error. -/
theorem launchOptions_parse_behavior :
    (∀ (l : LaunchOptions) (k : String) (v : JSValue)
        (rest : List (String × JSValue)), v.exportsNil = true →
      LaunchOptions.Parse l (some ((k, v) :: rest)) =
        LaunchOptions.Parse l (some rest)) ∧
    (∀ (l : LaunchOptions) (k : String) (v : JSValue)
        (rest : List (String × JSValue)), k ∉ launchOptionKeys →
      LaunchOptions.Parse l (some ((k, v) :: rest)) =
        LaunchOptions.Parse l (some rest)) ∧
    (∀ (l l2 l3 : LaunchOptions) (pre rest : List (String × JSValue))
        (k : String) (v : JSValue) (e : ParseError),
      parseLoop l pre = (l2, none) → v.exportsNil = false →
      applyLaunchKey l2 k v = (l3, some e) →
      LaunchOptions.Parse l (some (pre ++ (k, v) :: rest)) = (l3, some e)) := by
  refine ⟨?_, ?_, ?_⟩
  · intro l k v rest hnil
    simp [LaunchOptions.Parse, parseLoop, hnil]
  · intro l k v rest hk
    by_cases hnil : v.exportsNil = true
    · simp [LaunchOptions.Parse, parseLoop, hnil]
    · simp [LaunchOptions.Parse, parseLoop, eq_false_of_ne_true hnil,
        applyLaunchKey_unrecognized l k v hk]
  · intro l l2 l3 pre rest k v e hpre hnil hak
    show parseLoop l (pre ++ (k, v) :: rest) = (l3, some e)
    rw [parseLoop_append pre l l2 ((k, v) :: rest) hpre, parseLoop, hnil]
    simp [hak]

/-- Witness for C9: a null `headless` is skipped; the unknown key `bogus`
is ignored; and a malformed `timeout` after a successful `headless` stops
the parse with the timeout error, the `headless` mutation retained and the
later `debug` key unprocessed. -/
theorem launchOptions_parse_behavior_witness :
    LaunchOptions.Parse NewLaunchOptions (some [("headless", JSValue.null)]) =
        LaunchOptions.Parse NewLaunchOptions (some []) ∧
    LaunchOptions.Parse NewLaunchOptions
        (some [("bogus", JSValue.bool true)]) =
        LaunchOptions.Parse NewLaunchOptions (some []) ∧
    LaunchOptions.Parse LaunchOptions.zero
        (some ([("headless", JSValue.bool true)] ++
          ("timeout", JSValue.str "soon") :: [("debug", JSValue.bool true)])) =
      ({ LaunchOptions.zero with headless := true },
        some (ParseError.badOpt "timeout")) :=
  ⟨launchOptions_parse_behavior.1 NewLaunchOptions "headless" JSValue.null []
    (by decide),
   launchOptions_parse_behavior.2.1 NewLaunchOptions "bogus"
    (JSValue.bool true) [] (by decide),
   launchOptions_parse_behavior.2.2 LaunchOptions.zero
    { LaunchOptions.zero with headless := true }
    { LaunchOptions.zero with headless := true }
    [("headless", JSValue.bool true)] [("debug", JSValue.bool true)]
    "timeout" (JSValue.str "soon") (ParseError.badOpt "timeout")
    (by decide) (by decide) (by decide)⟩

/-- C10: tap issues the TouchStart dispatch carrying the single point
`(x, y)` and then, only when it succeeded, the TouchEnd dispatch with an
empty point list, both with the keyboard's current modifiers; it returns
no error iff both dispatches succeed; and a failing TouchStart is returned
as the error with the TouchEnd never issued. -/
theorem touchscreen_tap_commands {α ε : Type}
    (exec : TouchCommand α → Option ε) (modifiers : Int) (x y : α) :
    ((Touchscreen.tap exec modifiers x y).2 = none ↔
      exec ⟨.touchStart, [(x, y)], modifiers⟩ = none ∧
        exec ⟨.touchEnd, [], modifiers⟩ = none) ∧
    (exec ⟨.touchStart, [(x, y)], modifiers⟩ = none →
      (Touchscreen.tap exec modifiers x y).1 =
        [⟨.touchStart, [(x, y)], modifiers⟩, ⟨.touchEnd, [], modifiers⟩]) ∧
    (∀ err, exec ⟨.touchStart, [(x, y)], modifiers⟩ = some err →
      Touchscreen.tap exec modifiers x y =
        ([⟨.touchStart, [(x, y)], modifiers⟩], some err)) := by
  refine ⟨?_, ?_, ?_⟩
  · rcases h1 : exec ⟨.touchStart, [(x, y)], modifiers⟩ with _ | e1
    · rcases h2 : exec ⟨.touchEnd, [], modifiers⟩ with _ | e2 <;>
        simp [Touchscreen.tap, h1, h2]
    · simp [Touchscreen.tap, h1]
  · intro h1
    rcases h2 : exec ⟨.touchEnd, [], modifiers⟩ with _ | e2 <;>
      simp [Touchscreen.tap, h1, h2]
  · intro err h1
    simp [Touchscreen.tap, h1]

/-- Witness for C10: with a session accepting every dispatch, tap at
`(10, 20)` succeeds; with a session rejecting the TouchStart, tap returns
that error having issued only the TouchStart. -/
theorem touchscreen_tap_commands_witness :
    (Touchscreen.tap (fun _ : TouchCommand Nat => (none : Option Unit))
        3 10 20).2 = none ∧
    Touchscreen.tap
        (fun c : TouchCommand Nat =>
          if c.eventType = TouchEventType.touchStart then some () else none)
        3 10 20 =
      ([⟨.touchStart, [(10, 20)], 3⟩], some ()) :=
  ⟨(touchscreen_tap_commands (fun _ => none) 3 10 20).1.mpr ⟨rfl, rfl⟩,
   (touchscreen_tap_commands
      (fun c => if c.eventType = TouchEventType.touchStart then some () else none)
      3 10 20).2.2 () rfl⟩

/-- Witness for C7: a wait still pending after a committed event is
resolved with the frame-detached error when the detach event arrives. -/
theorem pending_wait_resolved_by_detach_witness :
    resolveWait 0 .loaded ⟨0, .init, false⟩
        ([.navigationStarted, .lifecycle .committed] ++ [.frameDetached]) =
      .frameDetachedError :=
  pending_wait_resolved_by_detach 0 .loaded
    [.navigationStarted, .lifecycle .committed] ⟨0, .init, false⟩ (by decide)

end XK6
